import Mathlib

/-!
Shallow embedding of the Banhammer framework (Dan6erbond/Banhammer-Framework)
together with proofs settling the frozen claims about its specification.

Each definition is a direct translation of the corresponding Python function;
the doc comment names the source location. Dependencies that are not part of
the repository (`apraw.utils.BoundedSet`, `apraw.utils.ExponentialCounter`,
the `yaml.get_list` parser) are modelled from the specification and marked as
such in their doc comments.
-/

set_option autoImplicit false

namespace Banhammer

/-! ### Python string primitives

The Python string methods used by the code (`str.lower`, `str.strip`,
`str.split`, `str.replace`) are modelled over `List Char` so that every
definition evaluates by kernel reduction. ASCII case-folding is adequate for
the Reddit identifiers (usernames, subreddit names, emoji keys) involved. -/

/-- Python `str.lower()` (ASCII case-folding). -/
def pyLower (s : String) : String :=
  ⟨s.data.map Char.toLower⟩

/-- Python `str.strip()`: remove leading and trailing whitespace. -/
def pyStrip (s : String) : String :=
  ⟨((s.data.dropWhile Char.isWhitespace).reverse.dropWhile Char.isWhitespace).reverse⟩

/-- Helper for Python `str.split(",")`: accumulate the current field
(reversed) and cut at every comma. -/
def splitCommaAux : List Char → List Char → List String
  | [], acc => [⟨acc.reverse⟩]
  | c :: cs, acc =>
    if c = ',' then ⟨acc.reverse⟩ :: splitCommaAux cs []
    else splitCommaAux cs (c :: acc)

/-- Python `str.split(",")`. -/
def pySplitComma (s : String) : List String :=
  splitCommaAux s.data []

/-- Python `str.replace("r/", "")`: drop every (left-to-right,
non-overlapping) occurrence of the two-character pattern. -/
def removeRSlash : List Char → List Char
  | 'r' :: '/' :: cs => removeRSlash cs
  | c :: cs => c :: removeRSlash cs
  | [] => []

/-- Python `str.replace("/", "")`: drop every slash. -/
def removeSlashes (cs : List Char) : List Char :=
  cs.filter (fun c => c ≠ '/')

/-! ### Dedup window (apraw.utils.BoundedSet) -/

/-- Modelled from the spec: `apraw.utils.BoundedSet` is a dependency, not under
`src/`. Per spec §3 "Dedup Window": an insertion-ordered set of identifiers
with fixed capacity that evicts the oldest entry on overflow. The `fifo` list
holds identifiers oldest-first. -/
structure BoundedSet where
  maxItems : Nat
  fifo : List String
deriving DecidableEq, Repr

/-- Membership test of the dedup window. -/
def BoundedSet.holds (s : BoundedSet) (x : String) : Bool :=
  s.fifo.contains x

/-- Insertion into the dedup window: no-op when already present, otherwise the
identifier is appended and the oldest entries are evicted down to capacity. -/
def BoundedSet.add (s : BoundedSet) (x : String) : BoundedSet :=
  if s.fifo.contains x then s
  else if s.maxItems < s.fifo.length + 1 then
    { s with fifo := (s.fifo ++ [x]).drop (s.fifo.length + 1 - s.maxItems) }
  else { s with fifo := s.fifo ++ [x] }

/-! ### Source streams (src/banhammer/subreddit.py) -/

/-- The per-(source, category) stream state: the dedup window (`_new_ids`,
`_mod_action_ids`, ...) and the priming flag (`_skip_new`, ...), per
`Subreddit.__init__` (src/banhammer/subreddit.py lines 23-35). A fresh state
has `skip = true` and an empty window of capacity 301. -/
structure StreamState where
  ids : BoundedSet
  skip : Bool
deriving DecidableEq, Repr

/-- The loop body of `Subreddit.get_new` (src/banhammer/subreddit.py lines
103-111): iterate over the (already reversed) batch of submission ids, skip
ids already in the window, insert the rest, and yield the id unless the
priming flag is set. Returns the yielded ids in order plus the final window. -/
def getNewLoop : List String → BoundedSet → Bool → List String × BoundedSet
  | [], ids, _ => ([], ids)
  | x :: xs, ids, skip =>
    if ids.holds x then getNewLoop xs ids skip
    else
      ((if skip then (getNewLoop xs (ids.add x) skip).1
        else x :: (getNewLoop xs (ids.add x) skip).1),
       (getNewLoop xs (ids.add x) skip).2)

/-- `Subreddit.get_new` (src/banhammer/subreddit.py lines 101-113): the batch
is given in fetch order (newest first) and reversed to chronological order;
after the loop the priming flag is cleared. -/
def getNew (st : StreamState) (batch : List String) : List String × StreamState :=
  ((getNewLoop batch.reverse st.ids st.skip).1,
   { ids := (getNewLoop batch.reverse st.ids st.skip).2, skip := false })

/-- A fetched mod-log action as consumed by `Subreddit.get_mod_actions`: its
identifier and the acting moderator's name (`action.id`, `action.mod`). -/
structure ModAction where
  id : String
  mod : String
deriving DecidableEq, Repr

/-- The loop body of `Subreddit.get_mod_actions` (src/banhammer/subreddit.py
lines 175-185): iterate over the (already reversed) batch; skip actions whose
id is already in the window; skip actions whose actor (lowercased) is not in
the lowercased allow-list OR when the allow-list is empty — in both cases
BEFORE inserting into the window; insert the rest and yield unless priming. -/
def getModActionsLoop (mods : List String) :
    List ModAction → BoundedSet → Bool → List String × BoundedSet
  | [], ids, _ => ([], ids)
  | a :: as, ids, skip =>
    if ids.holds a.id then getModActionsLoop mods as ids skip
    else if !(mods.contains (pyLower a.mod)) || mods.isEmpty then
      getModActionsLoop mods as ids skip
    else
      ((if skip then (getModActionsLoop mods as (ids.add a.id) skip).1
        else a.id :: (getModActionsLoop mods as (ids.add a.id) skip).1),
       (getModActionsLoop mods as (ids.add a.id) skip).2)

/-- `Subreddit.get_mod_actions` (src/banhammer/subreddit.py lines 172-187):
lowercases the allow-list, reverses the fetched batch to chronological order,
runs the loop, and clears the priming flag. -/
def getModActions (modsArg : List String) (st : StreamState) (batch : List ModAction) :
    List String × StreamState :=
  ((getModActionsLoop (modsArg.map pyLower) batch.reverse st.ids st.skip).1,
   { ids := (getModActionsLoop (modsArg.map pyLower) batch.reverse st.ids st.skip).2,
     skip := false })

/-! ### Basic window lemmas -/

theorem BoundedSet.holds_iff_mem (s : BoundedSet) (x : String) :
    s.holds x = true ↔ x ∈ s.fifo := by
  simp [BoundedSet.holds]

theorem BoundedSet.add_fifo_of_room (s : BoundedSet) (x : String)
    (h : s.fifo.length + 1 ≤ s.maxItems) :
    (s.add x).fifo = if x ∈ s.fifo then s.fifo else s.fifo ++ [x] := by
  unfold BoundedSet.add
  by_cases hc : x ∈ s.fifo
  · simp [hc]
  · have hlen : ¬ s.maxItems < s.fifo.length + 1 := by omega
    simp [hc, hlen]

theorem BoundedSet.holds_add_of_room (s : BoundedSet) (x y : String)
    (hroom : s.fifo.length + 1 ≤ s.maxItems)
    (h : s.holds y = true) : (s.add x).holds y = true := by
  rw [BoundedSet.holds_iff_mem] at h ⊢
  rw [BoundedSet.add_fifo_of_room s x hroom]
  by_cases hc : x ∈ s.fifo
  · simp only [hc, if_true]
    exact h
  · simp only [hc, if_false]
    exact List.mem_append.mpr (Or.inl h)

theorem BoundedSet.add_maxItems (s : BoundedSet) (x : String) :
    (s.add x).maxItems = s.maxItems := by
  unfold BoundedSet.add
  split
  · rfl
  · split <;> rfl

/-- Inserting a different identifier does not change membership, as long as
the window has room (no eviction). -/
theorem BoundedSet.holds_add_ne (s : BoundedSet) (x y : String)
    (hroom : s.fifo.length + 1 ≤ s.maxItems) (hne : y ≠ x) :
    (s.add x).holds y = s.holds y := by
  unfold BoundedSet.holds
  rw [BoundedSet.add_fifo_of_room s x hroom]
  by_cases hc : x ∈ s.fifo
  · simp [hc]
  · simp [hc, hne]

theorem BoundedSet.holds_add_self_of_room (s : BoundedSet) (x : String)
    (hroom : s.fifo.length + 1 ≤ s.maxItems) :
    (s.add x).holds x = true := by
  rw [BoundedSet.holds_iff_mem]
  rw [BoundedSet.add_fifo_of_room s x hroom]
  by_cases hc : x ∈ s.fifo
  · simp [hc]
  · simp [hc]

theorem BoundedSet.length_add_le (s : BoundedSet) (x : String)
    (hroom : s.fifo.length + 1 ≤ s.maxItems) :
    (s.add x).fifo.length ≤ s.fifo.length + 1 := by
  rw [BoundedSet.add_fifo_of_room s x hroom]
  by_cases hc : x ∈ s.fifo
  · simp [hc]
  · simp [hc]

/-- Insertion only extends membership: an element of the new window was there
before or is the inserted one (eviction only removes entries). -/
theorem BoundedSet.holds_add_elim (s : BoundedSet) (x y : String)
    (h : (s.add x).holds y = true) : s.holds y = true ∨ y = x := by
  rw [BoundedSet.holds_iff_mem] at h
  rw [BoundedSet.holds_iff_mem]
  unfold BoundedSet.add at h
  split at h
  · exact Or.inl h
  · have hmem : y ∈ s.fifo ++ [x] := by
      split at h
      · exact List.drop_subset _ _ h
      · exact h
    rcases List.mem_append.mp hmem with h1 | h1
    · exact Or.inl h1
    · exact Or.inr (List.mem_singleton.mp h1)

/-! ### Lemmas about `get_new` -/

theorem getNewLoop_skip_yields_nothing (xs : List String) (ids : BoundedSet) :
    (getNewLoop xs ids true).1 = [] := by
  induction xs generalizing ids with
  | nil => rfl
  | cons x xs ih =>
    unfold getNewLoop
    by_cases hc : ids.holds x = true
    · simp only [hc, if_true]
      exact ih ids
    · simp only [hc, if_false, Bool.false_eq_true, if_true]
      exact ih (ids.add x)

theorem getNewLoop_holds_mono (xs : List String) (ids : BoundedSet) (skip : Bool)
    (y : String) (hroom : ids.fifo.length + xs.length ≤ ids.maxItems)
    (h : ids.holds y = true) :
    ((getNewLoop xs ids skip).2).holds y = true := by
  induction xs generalizing ids with
  | nil => exact h
  | cons x xs ih =>
    have hr1 : ids.fifo.length + 1 ≤ ids.maxItems := by
      simp only [List.length_cons] at hroom
      omega
    unfold getNewLoop
    by_cases hc : ids.holds x = true
    · simp only [hc, if_true]
      refine ih ids ?_ h
      simp only [List.length_cons] at hroom
      omega
    · simp only [hc, if_false, Bool.false_eq_true]
      refine ih (ids.add x) ?_ (BoundedSet.holds_add_of_room ids x y hr1 h)
      rw [BoundedSet.add_maxItems]
      have := BoundedSet.length_add_le ids x hr1
      simp only [List.length_cons] at hroom
      omega

theorem getNewLoop_records (xs : List String) (ids : BoundedSet) (skip : Bool)
    (hroom : ids.fifo.length + xs.length ≤ ids.maxItems) :
    ∀ x ∈ xs, ((getNewLoop xs ids skip).2).holds x = true := by
  induction xs generalizing ids with
  | nil => intro x hx; cases hx
  | cons y xs ih =>
    intro x hx
    have hr1 : ids.fifo.length + 1 ≤ ids.maxItems := by
      simp only [List.length_cons] at hroom
      omega
    have hroomtail : ids.fifo.length + xs.length ≤ ids.maxItems := by
      simp only [List.length_cons] at hroom
      omega
    have hroomadd : (ids.add y).fifo.length + xs.length ≤ (ids.add y).maxItems := by
      rw [BoundedSet.add_maxItems]
      have := BoundedSet.length_add_le ids y hr1
      simp only [List.length_cons] at hroom
      omega
    unfold getNewLoop
    by_cases hc : ids.holds y = true
    · simp only [hc, if_true]
      rcases List.mem_cons.mp hx with rfl | hx'
      · exact getNewLoop_holds_mono xs ids skip x hroomtail hc
      · exact ih ids hroomtail x hx'
    · simp only [hc, if_false, Bool.false_eq_true]
      rcases List.mem_cons.mp hx with rfl | hx'
      · exact getNewLoop_holds_mono xs (ids.add x) skip x hroomadd
          (BoundedSet.holds_add_self_of_room ids x hr1)
      · exact ih (ids.add y) hroomadd x hx'

theorem getNewLoop_unseen (xs : List String) (ids : BoundedSet)
    (hnd : xs.Nodup) (hroom : ids.fifo.length + xs.length ≤ ids.maxItems) :
    (getNewLoop xs ids false).1 = xs.filter (fun x => !(ids.holds x)) := by
  induction xs generalizing ids with
  | nil => rfl
  | cons x xs ih =>
    have hr1 : ids.fifo.length + 1 ≤ ids.maxItems := by
      simp only [List.length_cons] at hroom
      omega
    have hroomtail : ids.fifo.length + xs.length ≤ ids.maxItems := by
      simp only [List.length_cons] at hroom
      omega
    have hroomadd : (ids.add x).fifo.length + xs.length ≤ (ids.add x).maxItems := by
      rw [BoundedSet.add_maxItems]
      have := BoundedSet.length_add_le ids x hr1
      simp only [List.length_cons] at hroom
      omega
    have hnotmem : x ∉ xs := (List.nodup_cons.mp hnd).1
    have hndtail : xs.Nodup := (List.nodup_cons.mp hnd).2
    unfold getNewLoop
    by_cases hc : ids.holds x = true
    · simp only [hc, if_true]
      rw [List.filter_cons_of_neg (by simp [hc])]
      exact ih ids hndtail hroomtail
    · simp only [hc, if_false, Bool.false_eq_true]
      rw [List.filter_cons_of_pos (by simp [hc])]
      rw [ih (ids.add x) hndtail hroomadd]
      congr 1
      apply List.filter_congr
      intro y hy
      have hne : y ≠ x := fun h => hnotmem (h ▸ hy)
      rw [BoundedSet.holds_add_ne ids x y hr1 hne]

/-- Claim C6 (confirmed): a source stream's first draw yields no items while
recording all fetched identifiers as seen and clearing the priming flag; any
subsequent draw yields exactly the fetched identifiers not already in the
dedup window, in oldest-first order (the fetched batch is newest-first, so the
yield order is its reverse), recording every fetched identifier. The window
hypothesis (capacity not exceeded, reference capacity 301 against batches of
at most 100) rules out mid-draw eviction; the batch ids are pairwise distinct
as listings never repeat an id. -/
theorem claim_C6_getNew (st : StreamState) (batch : List String)
    (hroom : st.ids.fifo.length + batch.length ≤ st.ids.maxItems)
    (hnd : batch.Nodup) :
    (st.skip = true → (getNew st batch).1 = []) ∧
    (st.skip = false →
      (getNew st batch).1 = batch.reverse.filter (fun x => !(st.ids.holds x))) ∧
    (∀ x ∈ batch, ((getNew st batch).2).ids.holds x = true) ∧
    (getNew st batch).2.skip = false := by
  have hroomr : st.ids.fifo.length + batch.reverse.length ≤ st.ids.maxItems := by
    rw [List.length_reverse]
    exact hroom
  refine ⟨?_, ?_, ?_, rfl⟩
  · intro hs
    show (getNewLoop batch.reverse st.ids st.skip).1 = []
    rw [hs]
    exact getNewLoop_skip_yields_nothing batch.reverse st.ids
  · intro hs
    show (getNewLoop batch.reverse st.ids st.skip).1 = _
    rw [hs]
    exact getNewLoop_unseen batch.reverse st.ids (List.nodup_reverse.mpr hnd) hroomr
  · intro x hx
    exact getNewLoop_records batch.reverse st.ids st.skip hroomr x
      (List.mem_reverse.mpr hx)

/-- Witness for C6 at a concrete input: a primed stream (skip flag cleared)
with id "a" already seen, drawing the batch ["c", "b"] (newest first), yields
["b", "c"] oldest-first and records all ids. -/
theorem claim_C6_witness :
    ((StreamState.mk ⟨301, ["a"]⟩ false).ids.fifo.length + ["c", "b"].length ≤
        (StreamState.mk ⟨301, ["a"]⟩ false).ids.maxItems) ∧
    (getNew (StreamState.mk ⟨301, ["a"]⟩ false) ["c", "b"]).1 =
      ["c", "b"].reverse.filter (fun x => !((StreamState.mk ⟨301, ["a"]⟩ false).ids.holds x)) ∧
    (∀ x ∈ ["c", "b"], (((getNew (StreamState.mk ⟨301, ["a"]⟩ false) ["c", "b"]).2).ids.holds x) = true) := by
  refine ⟨by decide, ?_, ?_⟩
  · exact (claim_C6_getNew (StreamState.mk ⟨301, ["a"]⟩ false) ["c", "b"]
      (by decide) (by decide)).2.1 rfl
  · exact (claim_C6_getNew (StreamState.mk ⟨301, ["a"]⟩ false) ["c", "b"]
      (by decide) (by decide)).2.2.1

/-! ### Lemmas about `get_mod_actions` -/

theorem getModActionsLoop_holds_elim (mods : List String) (xs : List ModAction)
    (ids : BoundedSet) (skip : Bool) (y : String)
    (h : ((getModActionsLoop mods xs ids skip).2).holds y = true) :
    ids.holds y = true ∨
      ∃ a ∈ xs, a.id = y ∧ mods ≠ [] ∧ mods.contains (pyLower a.mod) = true := by
  induction xs generalizing ids with
  | nil => exact Or.inl h
  | cons a as ih =>
    unfold getModActionsLoop at h
    by_cases hc : ids.holds a.id = true
    · simp only [hc, if_true] at h
      rcases ih ids h with h1 | ⟨b, hb, hby, hmne, hmc⟩
      · exact Or.inl h1
      · exact Or.inr ⟨b, List.mem_cons_of_mem a hb, hby, hmne, hmc⟩
    · simp only [hc, if_false, Bool.false_eq_true] at h
      by_cases hm : (!(mods.contains (pyLower a.mod)) || mods.isEmpty) = true
      · rw [if_pos hm] at h
        rcases ih ids h with h1 | ⟨b, hb, hby, hmne, hmc⟩
        · exact Or.inl h1
        · exact Or.inr ⟨b, List.mem_cons_of_mem a hb, hby, hmne, hmc⟩
      · rw [if_neg hm] at h
        simp only [Bool.or_eq_true, Bool.not_eq_true', List.isEmpty_iff, not_or] at hm
        obtain ⟨hm1, hm2⟩ := hm
        have hmc0 : mods.contains (pyLower a.mod) = true := by
          cases hcm : mods.contains (pyLower a.mod)
          · exact absurd hcm hm1
          · rfl
        dsimp only at h
        rcases ih (ids.add a.id) h with h1 | ⟨b, hb, hby, hmne, hmc⟩
        · rcases BoundedSet.holds_add_elim ids a.id y h1 with h2 | h2
          · exact Or.inl h2
          · exact Or.inr ⟨a, List.mem_cons_self a as, h2.symm, hm2, hmc0⟩
        · exact Or.inr ⟨b, List.mem_cons_of_mem a hb, hby, hmne, hmc⟩

theorem getModActionsLoop_nil_mods (xs : List ModAction) (ids : BoundedSet)
    (skip : Bool) : getModActionsLoop [] xs ids skip = ([], ids) := by
  induction xs generalizing ids with
  | nil => rfl
  | cons a as ih =>
    unfold getModActionsLoop
    by_cases hc : ids.holds a.id = true
    · simp only [hc, if_true]
      exact ih ids
    · simp only [hc, if_false, Bool.false_eq_true, List.isEmpty_nil, Bool.or_true,
        if_true]
      exact ih ids

/-- Claim C2 counterexample: a previously unseen action "a1" performed by
actor "bob", drawn with allow-list ["alice"], is NOT inserted into the dedup
window — the claim asserts its identifier is inserted regardless of whether
the actor matches. In the code the actor check `continue`s BEFORE
`self._mod_action_ids.add(action.id)`. -/
theorem claim_C2_counterexample :
    ((getModActions ["alice"] ⟨⟨301, []⟩, true⟩ [⟨"a1", "bob"⟩]).2).ids.holds "a1"
      = false := by
  decide

/-- Claim C2 (corrected): an identifier is recorded in the dedup window only
if it was already there, or it belongs to a fetched action whose actor
(lowercased) IS in the non-empty lowercased allow-list. An actor mismatch
does NOT consume a dedup slot, so a later allow-list change CAN surface the
mismatched action again. -/
theorem claim_C2_amended (modsArg : List String) (st : StreamState)
    (batch : List ModAction) (y : String)
    (h : ((getModActions modsArg st batch).2).ids.holds y = true) :
    st.ids.holds y = true ∨
      ∃ a ∈ batch, a.id = y ∧ modsArg ≠ [] ∧
        (pyLower a.mod) ∈ modsArg.map pyLower := by
  have h' : ((getModActionsLoop (modsArg.map pyLower) batch.reverse
      st.ids st.skip).2).holds y = true := h
  rcases getModActionsLoop_holds_elim _ _ _ _ _ h' with h1 | ⟨a, ha, hay, hne, hmc⟩
  · exact Or.inl h1
  · refine Or.inr ⟨a, List.mem_reverse.mp ha, hay, ?_, ?_⟩
    · intro hnil
      exact hne (by simp [hnil])
    · simpa using hmc

/-- Witness for C2's amended theorem at a concrete input: actor "alice"
matches allow-list ["Alice"], so its action id "a1" IS recorded, and the
theorem locates the matching action. -/
theorem claim_C2_witness :
    (((getModActions ["Alice"] ⟨⟨301, []⟩, true⟩ [⟨"a1", "alice"⟩]).2).ids.holds "a1"
       = true) ∧
    ((⟨⟨301, []⟩, true⟩ : StreamState).ids.holds "a1" = true ∨
      ∃ a ∈ [ModAction.mk "a1" "alice"], a.id = "a1" ∧ (["Alice"] : List String) ≠ [] ∧
        (pyLower a.mod) ∈ (["Alice"] : List String).map pyLower) :=
  ⟨by decide,
   claim_C2_amended ["Alice"] ⟨⟨301, []⟩, true⟩ [⟨"a1", "alice"⟩] "a1" (by decide)⟩

/-- Claim C3 counterexample: the stream is already primed (skip flag cleared)
and the allow-list is empty; the unseen action "a1" by "alice" is NOT yielded
(and not even recorded as seen) although the claim asserts that with an empty
allow-list no actor filtering applies and every unseen action is yielded. -/
theorem claim_C3_counterexample :
    (getModActions [] ⟨⟨301, []⟩, false⟩ [⟨"a1", "alice"⟩]).1 = [] ∧
    (getModActions [] ⟨⟨301, []⟩, false⟩ [⟨"a1", "alice"⟩]).1 ≠ ["a1"] ∧
    ((getModActions [] ⟨⟨301, []⟩, false⟩ [⟨"a1", "alice"⟩]).2).ids.holds "a1"
      = false := by
  decide

/-- Claim C3 (corrected): with an EMPTY actor allow-list the mod-actions
stream skips EVERY action (the guard `not in mods or not mods` is always
true): nothing is ever yielded, no identifier is recorded as seen, and only
the priming flag is cleared. Only a non-empty allow-list lets any action
through. -/
theorem claim_C3_amended (st : StreamState) (batch : List ModAction) :
    (getModActions [] st batch).1 = [] ∧
    ((getModActions [] st batch).2).ids = st.ids ∧
    (getModActions [] st batch).2.skip = false := by
  have h := getModActionsLoop_nil_mods batch.reverse st.ids st.skip
  unfold getModActions
  simp only [List.map_nil]
  rw [h]
  simp

/-! ### Event filters and handlers (src/banhammer/models/event_handler.py) -/

/-- `ItemAttribute` enum (src/banhammer/models/event_handler.py lines 10-13). -/
inductive ItemAttribute
  | subreddit
  | author
  | mod
deriving DecidableEq, Repr

/-- `GeneratorIdentifier` enum (src/banhammer/models/event_handler.py lines
16-25). -/
inductive GeneratorIdentifier
  | new
  | comments
  | reports
  | mail
  | queue
  | modActions
deriving DecidableEq, Repr

/-- The observations of a `RedditItem` (src/banhammer/models/item.py lines
15-60) consumed by `EventFilter.is_item_valid`: the computed `type` string,
the resolved author or actor name (`get_author_name`), and
`str(item.subreddit)`. -/
structure RedditItem where
  id : String
  type : String
  authorName : String
  subredditName : String
deriving DecidableEq, Repr

/-- `EventFilter` (src/banhammer/models/event_handler.py lines 28-33): one
attribute (`attr` renders the source's `_attribute`), the accepted values
(`*args`), and the `reverse` keyword flag. -/
structure EventFilter where
  attr : ItemAttribute
  values : List String
  reverse : Bool
deriving DecidableEq, Repr

/-- An argument of `EventHandler.__call__`. `Banhammer.handle_*`
(src/banhammer/banhammer.py line 147) passes TWO arguments: the `RedditItem`
and the dispatching `GeneratorIdentifier`. -/
inductive CallArg
  | item (i : RedditItem)
  | ident (g : GeneratorIdentifier)
deriving DecidableEq, Repr

/-- `EventFilter.is_item_valid` (src/banhammer/models/event_handler.py lines
35-59), evaluated on an arbitrary argument since `EventHandler.__call__`
applies it to `args[-1]`. Attribute access on a `GeneratorIdentifier` value
(`item.type`, `item.get_author_name`, `item.subreddit`) raises
`AttributeError`. -/
def EventFilter.isItemValid (f : EventFilter) (arg : CallArg) : Except String Bool :=
  if f.values = [] then .ok true
  else
    match f.attr, arg with
    | .mod, .item i =>
      if i.type ≠ "mod action" then .ok false
      else if ¬ (f.values.any fun v => pyLower i.authorName == pyLower v) then .ok false
      else if f.reverse then .ok false
      else .ok true
    | .author, .item i =>
      if ¬ (f.values.any fun v => pyLower i.authorName == pyLower v) then .ok false
      else if f.reverse then .ok false
      else .ok true
    | .subreddit, .item i =>
      if ¬ (f.values.any fun v => pyLower i.subredditName == pyLower v) then .ok false
      else if f.reverse then .ok false
      else .ok true
    | _, .ident _ => .error "AttributeError"

/-- `EventHandler` (src/banhammer/models/event_handler.py lines 65-71): the
bound generator identifier and the ordered filter list (the callback itself
is abstracted away; `call` below reports whether it was invoked). -/
structure EventHandler where
  identifier : GeneratorIdentifier
  filters : List EventFilter
deriving DecidableEq, Repr

/-- The filter loop of `EventHandler.__call__` (lines 138-142): each filter
is applied to `args[-1]`, stopping at the first rejection; a raised error
propagates; an empty `args` raises `IndexError` at the first access. -/
def callFilters : List EventFilter → List CallArg → Except String Bool
  | [], _ => .ok true
  | f :: fs, args =>
    match args.getLast? with
    | none => .error "IndexError"
    | some last =>
      match f.isItemValid last with
      | .error e => .error e
      | .ok b => if b then callFilters fs args else .ok false

/-- `EventHandler.__call__` (src/banhammer/models/event_handler.py lines
137-145): returns `.ok true` when the callback is invoked (every filter
accepted `args[-1]`), `.ok false` for the silent no-op, `.error` for a raised
exception. The bound `identifier` is never consulted. -/
def EventHandler.call (h : EventHandler) (args : List CallArg) : Except String Bool :=
  callFilters h.filters args

/-- `Banhammer.handle_new` (src/banhammer/banhammer.py lines 133-147):
invokes EVERY registered handler as `handler(item, GeneratorIdentifier.NEW)`,
with no per-handler category check. -/
def handleNew (handlers : List EventHandler) (i : RedditItem) :
    List (Except String Bool) :=
  handlers.map fun h => h.call [CallArg.item i, CallArg.ident .new]

/-- Claim C1 counterexample: a handler BOUND TO `comments` with no filters,
dispatched by `Banhammer.handle_new` for a new submission, invokes its
callback (`.ok true`) — the claim asserts invocation is a no-op whenever the
item's category differs from the handler's bound category. -/
theorem claim_C1_counterexample :
    handleNew [⟨GeneratorIdentifier.comments, []⟩]
      ⟨"p1", "submission", "alice", "pics"⟩ = [.ok true] := by
  rfl

/-- Claim C1 (corrected): `EventHandler.__call__` performs NO category check —
its result is independent of the handler's bound identifier — and it
evaluates the filters against the LAST call argument, which under the
`Banhammer.handle_*` dispatch is the generator identifier rather than the
item. A filter with a non-empty value set raises `AttributeError` on that
argument, so under dispatch the callback is invoked iff every filter of the
handler has an empty value set. -/
theorem claim_C1_amended (h : EventHandler) (g' : GeneratorIdentifier)
    (args : List CallArg) (i : RedditItem) (g : GeneratorIdentifier) :
    (EventHandler.call ⟨g', h.filters⟩ args = h.call args) ∧
    (h.call [CallArg.item i, CallArg.ident g] = .ok true ↔
      ∀ f ∈ h.filters, f.values = []) := by
  constructor
  · rfl
  · show callFilters h.filters _ = .ok true ↔ _
    induction h.filters with
    | nil => simp [callFilters]
    | cons f fs ih =>
      have hl : ([CallArg.item i, CallArg.ident g]).getLast? =
          some (CallArg.ident g) := rfl
      by_cases hv : f.values = []
      · have hf : f.isItemValid (CallArg.ident g) = .ok true := by
          unfold EventFilter.isItemValid
          rw [if_pos hv]
        simp [callFilters, hl, hf, ih, hv]
      · have hf : f.isItemValid (CallArg.ident g) = .error "AttributeError" := by
          unfold EventFilter.isItemValid
          rw [if_neg hv]
          cases f.attr <;> rfl
        simp [callFilters, hl, hf, hv]

/-- Attribute match following the claim's wording: the item's selected
attribute, lowercased, equals some configured value, lowercased (the
actor/mod attribute carries the code's additional type gate so that the XOR
comparison isolates the invert behaviour). -/
def filterMatches (f : EventFilter) (i : RedditItem) : Bool :=
  match f.attr with
  | .mod => i.type == "mod action" &&
      (f.values.any fun v => pyLower i.authorName == pyLower v)
  | .author => f.values.any fun v => pyLower i.authorName == pyLower v
  | .subreddit => f.values.any fun v => pyLower i.subredditName == pyLower v

/-- The acceptance predicate claim C5 asserts: empty value set accepts
everything, otherwise attribute match XOR invert flag. -/
def specFilterXor (f : EventFilter) (i : RedditItem) : Bool :=
  if f.values = [] then true else xor (filterMatches f i) f.reverse

/-- Claim C5 counterexample: the filter AUTHOR ∈ {"alice"} with the invert
flag set, applied to an item authored by "bob": the claimed XOR semantics
accepts (no match XOR invert = true) but `is_item_valid` returns `.ok false`;
`reverse` never turns a non-match into an acceptance. -/
theorem claim_C5_counterexample :
    EventFilter.isItemValid ⟨ItemAttribute.author, ["alice"], true⟩
        (CallArg.item ⟨"p1", "submission", "bob", "pics"⟩) = .ok false ∧
    specFilterXor ⟨ItemAttribute.author, ["alice"], true⟩
        ⟨"p1", "submission", "bob", "pics"⟩ = true := by
  exact ⟨rfl, rfl⟩

/-- Claim C5 (corrected): a filter with an empty value set accepts every
item; one with a non-empty value set accepts iff its attribute matches
(case-insensitively, the mod attribute additionally requiring item type
"mod action") AND the invert flag is NOT set — `reverse` only flips a
would-be acceptance into a rejection. -/
theorem claim_C5_amended (f : EventFilter) (i : RedditItem) :
    (f.values = [] → f.isItemValid (CallArg.item i) = .ok true) ∧
    (f.values ≠ [] →
      (f.isItemValid (CallArg.item i) = .ok true ↔
        filterMatches f i = true ∧ f.reverse = false)) := by
  constructor
  · intro hv
    unfold EventFilter.isItemValid
    rw [if_pos hv]
  · intro hv
    unfold EventFilter.isItemValid filterMatches
    rw [if_neg hv]
    cases f.attr with
    | mod =>
      by_cases ht : i.type = "mod action"
      · by_cases hm : (f.values.any fun v => pyLower i.authorName == pyLower v) = true
        · cases hr : f.reverse <;> simp [ht, hm, hr]
        · cases hr : f.reverse <;> simp [ht, hm, hr]
      · cases hr : f.reverse <;> simp [ht, hr]
    | author =>
      by_cases hm : (f.values.any fun v => pyLower i.authorName == pyLower v) = true
      · cases hr : f.reverse <;> simp [hm, hr]
      · cases hr : f.reverse <;> simp [hm, hr]
    | subreddit =>
      by_cases hm : (f.values.any fun v => pyLower i.subredditName == pyLower v) = true
      · cases hr : f.reverse <;> simp [hm, hr]
      · cases hr : f.reverse <;> simp [hm, hr]

/-- Witness for C5's amended theorem at a concrete input: non-inverted
author filter {"alice"} accepts the item authored by "Alice". -/
theorem claim_C5_witness :
    (EventFilter.mk ItemAttribute.author ["alice"] false).values ≠ [] ∧
    ((EventFilter.mk ItemAttribute.author ["alice"] false).isItemValid
        (CallArg.item ⟨"p1", "submission", "Alice", "pics"⟩) = .ok true ↔
      filterMatches (EventFilter.mk ItemAttribute.author ["alice"] false)
          ⟨"p1", "submission", "Alice", "pics"⟩ = true ∧
        (EventFilter.mk ItemAttribute.author ["alice"] false).reverse = false) :=
  ⟨by decide, (claim_C5_amended (EventFilter.mk ItemAttribute.author ["alice"] false)
      ⟨"p1", "submission", "Alice", "pics"⟩).2 (by decide)⟩

/-! ### Reactions (src/banhammer/models/reaction.py) -/

/-- The closed kinds of wrapped raw items distinguished by the `isinstance`
branching in the reaction code. -/
inductive ItemKind
  | submission
  | comment
  | modmailMessage
  | modmailConversation
  | modAction
deriving DecidableEq, Repr

/-- Observations of a wrapped item consumed by `Reaction.handle` and
`ReactionHandler.gen_handle`: the raw item's kind, the removal observations
`item.is_removed()` and `item.is_author_removed()` (the synchronous
implementations, src/banhammer/item.py lines 25-44), and the author's name
used for ban tags. -/
structure ReactionItem where
  kind : ItemKind
  removed : Bool
  authorRemoved : Bool
  authorName : String
deriving DecidableEq, Repr

/-- `Reaction` configuration (src/banhammer/models/reaction.py lines
113-136), after `__init__` has applied the defaults and the
`sticky_reply ⇒ distinguish_reply` coupling. -/
structure Reaction where
  emoji : String
  type : String
  flair : String
  approve : Bool
  mark_nsfw : Bool
  lock : Bool
  reply : String
  distinguish_reply : Bool
  sticky_reply : Bool
  ban : Option Int
  archive : Bool
  mute : Bool
  min_votes : Int
deriving DecidableEq, Repr

/-- `ReactionPayload` (src/banhammer/models/reaction.py lines 9-27). -/
structure ReactionPayload where
  item : Option ReactionItem
  user : String
  actions : List String
  approved : Bool
  reply : String
  emoji : String
deriving DecidableEq, Repr

/-- `ReactionPayload.__init__`: no item, user "Banhammer", no actions. -/
def ReactionPayload.init : ReactionPayload :=
  { item := none, user := "Banhammer", actions := [], approved := false,
    reply := "", emoji := "" }

/-- `ReactionPayload.feed` (lines 22-27): sets `item`, `approved`, `user`
(only when the supplied user is non-empty) and `reply`. It does NOT store
the supplied emoji and does NOT clear `actions`. -/
def ReactionPayload.feed (p : ReactionPayload) (item : ReactionItem)
    (approved : Bool) (user : String) (_emoji : String) (reply : String) :
    ReactionPayload :=
  { p with item := some item, approved := approved,
           user := if user ≠ "" then user else p.user,
           reply := reply }

/-- `Reaction.eligible` (src/banhammer/models/reaction.py lines 178-188). -/
def Reaction.eligible (r : Reaction) (kind : ItemKind) : Bool :=
  match kind with
  | .submission => r.type == "" || r.type == "submission"
  | .comment => r.type == "" || r.type == "comment"
  | .modmailMessage => r.type == "mail"
  | .modmailConversation => r.type == "mail"
  | .modAction => false

/-- `ReactionHandler.gen_handle` (src/banhammer/models/reaction.py lines
42-108), tracking the payload: the moderation calls against the content
source are capability side effects outside the model; the recorded action
tags and payload fields follow the source order exactly. -/
def ReactionHandler.genHandle (r : Reaction) (item : ReactionItem)
    (p : ReactionPayload) : ReactionPayload :=
  if item.kind = .modmailConversation ∨ item.kind = .modmailMessage then
    let p1 := if r.archive then { p with actions := p.actions ++ ["archived"] } else p
    let p2 := if r.mute then { p1 with actions := p1.actions ++ ["muted"] } else p1
    if r.reply ≠ "" then { p2 with actions := p2.actions ++ ["replied to"] } else p2
  else
    if item.removed || item.authorRemoved then
      ({ p with actions := p.actions ++ ["removed", "locked"] }).feed
        item false "Banhammer" "" ""
    else
      let p1 := if r.approve then { p with actions := p.actions ++ ["approved"] }
                else { p with actions := p.actions ++ ["removed"] }
      let p2 := if r.lock || !r.approve then
                  { p1 with actions := p1.actions ++ ["locked"] }
                else p1
      let p3 :=
        if item.kind = .submission then
          let q := if r.flair ≠ "" then { p2 with actions := p2.actions ++ ["flaired"] }
                   else p2
          if r.mark_nsfw then { q with actions := q.actions ++ ["marked NSFW"] } else q
        else p2
      let p4 := if r.reply ≠ "" then { p3 with actions := p3.actions ++ ["replied to"] }
                else p3
      match r.ban with
      | none => p4
      | some d =>
        if d = 0 then
          { p4 with actions :=
              p4.actions ++ ["/u/" ++ item.authorName ++ " permanently banned"] }
        else
          { p4 with actions :=
              p4.actions ++
                ["/u/" ++ item.authorName ++ " banned for " ++ toString d ++ " day(s)"] }

/-- `Reaction.handle` (src/banhammer/models/reaction.py lines 162-176) called
WITHOUT an explicit `payload` argument. In Python the default
`payload=ReactionPayload()` is constructed ONCE at function-definition time
and shared by every such call: `shared` is that object's current state, and
the returned payload IS that same object, whose state the next defaulted
call starts from. An item is supplied, so the `NoItemGiven` branch does not
arise; ineligible items raise `NotEligibleItem`. -/
def Reaction.handleDefault (r : Reaction) (item : ReactionItem) (user : String)
    (shared : ReactionPayload) : Except String ReactionPayload :=
  if !(r.eligible item.kind) then .error "NotEligibleItem"
  else
    .ok (ReactionHandler.genHandle r item
      (shared.feed item r.approve (if user = "" then shared.user else user)
        r.emoji r.reply))

/-- Claim C4 (code bug; spec §9 calls the shared-default payload a latent
state-leak and makes a fresh payload a correctness requirement): two
successive `Reaction.handle` calls without an explicit payload operate on ONE
`ReactionPayload` created at function-definition time. The composition below
threads the shared object's state: the second call returns actions
["removed", "locked", "removed", "locked"], carrying the first call's tags,
whereas the same call on a fresh payload returns ["removed", "locked"] — the
second execution is NOT independent of the first. -/
theorem claim_C4_shared_default_payload :
    (((Reaction.handleDefault
          ⟨"x", "", "", false, false, false, "", true, true, none, false, false, 1⟩
          ⟨ItemKind.submission, false, false, "alice"⟩ "" ReactionPayload.init).bind
        (fun sharedAfterFirst => Reaction.handleDefault
          ⟨"x", "", "", false, false, false, "", true, true, none, false, false, 1⟩
          ⟨ItemKind.submission, false, false, "bob"⟩ "" sharedAfterFirst)).map
        (fun p => p.actions)
      = .ok ["removed", "locked", "removed", "locked"]) ∧
    ((Reaction.handleDefault
          ⟨"x", "", "", false, false, false, "", true, true, none, false, false, 1⟩
          ⟨ItemKind.submission, false, false, "bob"⟩ "" ReactionPayload.init).map
        (fun p => p.actions)
      = .ok ["removed", "locked"]) := by
  exact ⟨rfl, rfl⟩

/-- Claim C9 (confirmed): a reaction with `approve=false, lock=false`, empty
flair, no NSFW mark, empty reply and no ban, executed on an eligible
submission that is not removed and whose author is not removed, records
exactly ["removed", "locked"] in that order (default-lock-on-remove),
starting from an empty action list. -/
theorem claim_C9_remove_lock (r : Reaction) (item : ReactionItem)
    (p : ReactionPayload)
    (_helig : r.eligible item.kind = true)
    (hkind : item.kind = ItemKind.submission)
    (hrem : item.removed = false) (harem : item.authorRemoved = false)
    (happ : r.approve = false) (hlock : r.lock = false)
    (hflair : r.flair = "") (hnsfw : r.mark_nsfw = false)
    (hreply : r.reply = "") (hban : r.ban = none)
    (hacts : p.actions = []) :
    (ReactionHandler.genHandle r item p).actions = ["removed", "locked"] := by
  unfold ReactionHandler.genHandle
  simp [hkind, hrem, harem, happ, hlock, hflair, hnsfw, hreply, hban, hacts]

/-- Witness for C9 at a concrete input: the default remove reaction on a
live submission. -/
theorem claim_C9_witness :
    (Reaction.mk "x" "" "" false false false "" true true none false false 1).eligible
        (ReactionItem.mk ItemKind.submission false false "alice").kind = true ∧
    (ReactionHandler.genHandle
        (Reaction.mk "x" "" "" false false false "" true true none false false 1)
        (ReactionItem.mk ItemKind.submission false false "alice")
        ReactionPayload.init).actions = ["removed", "locked"] :=
  ⟨by decide,
   claim_C9_remove_lock
     (Reaction.mk "x" "" "" false false false "" true true none false false 1)
     (ReactionItem.mk ItemKind.submission false false "alice")
     ReactionPayload.init
     (by decide) rfl rfl rfl rfl rfl rfl rfl rfl rfl rfl⟩

/-! ### Rule text parsing, `get_reactions` (src/banhammer/models/reaction.py) -/

/-- Modelled from the spec: a parsed rule record as produced by the external
`yaml.get_list` parser (the `yaml` module is repository code not under
`src/`; spec §1 and §6 treat parsing as a pure "parse config text → record
list" function with the listed recognized keys). `none` means the key is
absent from the record. -/
structure RuleRecord where
  ignore : Option String
  emoji : Option String
  type : Option String
  flair : Option String
  approve : Option Bool
  mark_nsfw : Option Bool
  lock : Option Bool
  reply : Option String
  distinguish_reply : Option Bool
  sticky_reply : Option Bool
  ban : Option Int
  archive : Option Bool
  mute : Option Bool
  min_votes : Option Int
deriving DecidableEq, Repr

/-- The record with every key absent (base for literals). -/
def RuleRecord.empty : RuleRecord :=
  ⟨none, none, none, none, none, none, none, none, none, none, none, none, none, none⟩

/-- `Reaction.__init__` applied to a record's keys
(src/banhammer/models/reaction.py lines 113-136): source defaults, stripped
emoji, `sticky_reply` (default true) forcing `distinguish_reply`. -/
def Reaction.ofRecord (rec : RuleRecord) : Reaction :=
  { emoji := pyStrip (rec.emoji.getD "")
    type := rec.type.getD ""
    flair := rec.flair.getD ""
    approve := rec.approve.getD false
    mark_nsfw := rec.mark_nsfw.getD false
    lock := rec.lock.getD false
    reply := rec.reply.getD ""
    distinguish_reply :=
      if rec.sticky_reply.getD true then true else rec.distinguish_reply.getD true
    sticky_reply := rec.sticky_reply.getD true
    ban := rec.ban
    archive := rec.archive.getD false
    mute := rec.mute.getD false
    min_votes := rec.min_votes.getD 1 }

/-- The `for`/`break` scan of `get_reactions` (src/banhammer/models/reaction.py
lines 195-199): the first record carrying the `ignore` key. -/
def findIgnoreRecord : List RuleRecord → Option RuleRecord
  | [] => none
  | r :: rs => if r.ignore.isSome then some r else findIgnoreRecord rs

/-- Python `list.remove(x)` as used on the record list: delete the first
element equal to `x` (record equality mirrors dict content equality); the
caller's scan guarantees presence, so the not-found `ValueError` cannot
arise and is rendered as no change. -/
def pyRemoveFirst (rs : List RuleRecord) (x : RuleRecord) : List RuleRecord :=
  match rs with
  | [] => []
  | r :: rs => if r = x then rs else r :: pyRemoveFirst rs x

/-- The dict returned by `get_reactions`. -/
structure ReactionsResult where
  ignore : List String
  reactions : List Reaction
deriving DecidableEq, Repr

/-- `get_reactions` (src/banhammer/models/reaction.py lines 191-205) over the
parsed record list: the first `ignore`-keyed record is removed and its
comma-separated, stripped entries returned under "ignore"; every remaining
record with an `emoji` key becomes a `Reaction`. Note the source never
applies the ignore list to the reaction list (`ignore_reactions` is not
called). -/
def getReactions (records : List RuleRecord) : ReactionsResult :=
  match findIgnoreRecord records with
  | none =>
    { ignore := [],
      reactions := (records.filter (fun r => r.emoji.isSome)).map Reaction.ofRecord }
  | some rec =>
    { ignore := (pySplitComma (rec.ignore.getD "")).map pyStrip,
      reactions := ((pyRemoveFirst records rec).filter
          (fun r => r.emoji.isSome)).map Reaction.ofRecord }

theorem findIgnoreRecord_eq_find? (rs : List RuleRecord) :
    findIgnoreRecord rs = rs.find? (fun r => r.ignore.isSome) := by
  induction rs with
  | nil => rfl
  | cons r rs ih =>
    unfold findIgnoreRecord
    by_cases hc : r.ignore.isSome = true
    · simp [hc]
    · simp [hc, ih]

theorem findIgnoreRecord_isSome (rs : List RuleRecord) (rec : RuleRecord)
    (h : findIgnoreRecord rs = some rec) : rec.ignore.isSome = true := by
  induction rs with
  | nil => cases h
  | cons r rs ih =>
    unfold findIgnoreRecord at h
    by_cases hc : r.ignore.isSome = true
    · rw [if_pos hc] at h
      cases h
      exact hc
    · rw [if_neg hc] at h
      exact ih h

theorem pyRemoveFirst_eq_eraseP (rs : List RuleRecord) (rec : RuleRecord)
    (h : findIgnoreRecord rs = some rec) :
    pyRemoveFirst rs rec = rs.eraseP (fun r => r.ignore.isSome) := by
  induction rs with
  | nil => cases h
  | cons r rs ih =>
    unfold findIgnoreRecord at h
    unfold pyRemoveFirst
    by_cases hc : r.ignore.isSome = true
    · rw [if_pos hc] at h
      cases h
      rw [if_pos rfl]
      simp [List.eraseP_cons, hc]
    · rw [if_neg hc] at h
      have hne : ¬ (r = rec) := by
        intro hEq
        exact hc (hEq ▸ findIgnoreRecord_isSome rs rec h)
      rw [if_neg hne]
      simp [List.eraseP_cons, hc, ih h]

/-- Claim C8 counterexample: with parsed records
[{ignore: "b"}, {emoji: "b"}], `get_reactions` returns ignore = ["b"] yet the
reaction list still contains the reaction with emoji "b" — the ignore list is
never applied to the constructed reaction list, contradicting the claim that
every emoji named in it is excluded. -/
theorem claim_C8_counterexample :
    (getReactions [{ RuleRecord.empty with ignore := some "b" },
                   { RuleRecord.empty with emoji := some "b" }]).ignore = ["b"] ∧
    ((getReactions [{ RuleRecord.empty with ignore := some "b" },
                    { RuleRecord.empty with emoji := some "b" }]).reactions.map
        (fun r => r.emoji)) = ["b"] := by
  exact ⟨rfl, rfl⟩

/-- Claim C8 (corrected): `get_reactions` removes the FIRST `ignore`-keyed
record from the list and returns its comma-separated, whitespace-stripped
entries under "ignore", but does NOT apply that list: the constructed
reaction list contains a `Reaction` for every remaining record carrying an
`emoji` key, including records whose emoji is named in the ignore list (the
separate `ignore_reactions` helper is never invoked by `get_reactions`). -/
theorem claim_C8_amended (records : List RuleRecord) :
    (getReactions records).reactions =
      ((records.eraseP (fun r => r.ignore.isSome)).filter
          (fun r => r.emoji.isSome)).map Reaction.ofRecord ∧
    (getReactions records).ignore =
      (match records.find? (fun r => r.ignore.isSome) with
       | none => []
       | some rec => (pySplitComma (rec.ignore.getD "")).map pyStrip) := by
  unfold getReactions
  rw [findIgnoreRecord_eq_find?]
  cases hfind : records.find? (fun r => r.ignore.isSome) with
  | none =>
    have hall : ∀ r ∈ records, ¬ ((fun r => r.ignore.isSome) r = true) :=
      fun r hr => by
        have := List.find?_eq_none.mp hfind r hr
        simpa using this
    rw [List.eraseP_of_forall_not (by simpa using hall)]
    exact ⟨rfl, rfl⟩
  | some rec =>
    dsimp only
    rw [pyRemoveFirst_eq_eraseP records rec
      ((findIgnoreRecord_eq_find? records).symm ▸ hfind)]
    exact ⟨rfl, rfl⟩

/-! ### `Banhammer.remove_subreddit` (src/banhammer/banhammer.py lines 80-100) -/

/-- A Python object held in `Banhammer.subreddits` or passed to
`list.remove`: a `Subreddit` instance (identified by object id `oid`;
`str()` returns its `name`, per `Subreddit.__str__`) or a plain string. -/
inductive SubEntry
  | subObj (oid : Nat) (name : String)
  | strObj (s : String)
deriving DecidableEq, Repr

/-- Python `str(x)` on such an object. -/
def SubEntry.pyStr : SubEntry → String
  | .subObj _ name => name
  | .strObj s => s

/-- Python `==` between such objects: strings compare by value; `Subreddit`
defines no `__eq__`, so instances compare by identity and a string never
equals a `Subreddit` instance. -/
def SubEntry.pyEq : SubEntry → SubEntry → Bool
  | .subObj i _, .subObj j _ => i == j
  | .strObj a, .strObj b => a == b
  | _, _ => false

/-- Whether the entry is a `Subreddit` instance. -/
def SubEntry.isSub : SubEntry → Bool
  | .subObj _ _ => true
  | .strObj _ => false

/-- `str(x).lower().replace("r/", "").replace("/", "")`, the normalization
applied to both the argument and each stored subreddit in
`Banhammer.remove_subreddit` (lines 94-96). -/
def normalizeSubName (s : String) : String :=
  ⟨removeSlashes (removeRSlash (pyLower s).data)⟩

/-- Python `list.remove(x)`: remove the first element `== x`; raise
`ValueError` when no element compares equal. -/
def pyListRemove (l : List SubEntry) (x : SubEntry) : Except String (List SubEntry) :=
  match l with
  | [] => .error "ValueError"
  | y :: ys =>
    if y.pyEq x then .ok ys
    else (pyListRemove ys x).map (fun zs => y :: zs)

/-- `Banhammer.remove_subreddit` (src/banhammer/banhammer.py lines 80-100):
scan the stored subreddits in order; at the first entry whose normalized name
equals the normalized argument, call `self.subreddits.remove(sub)` — where
`sub` is the NORMALIZED NAME STRING, the loop variable having been reassigned
on line 96 — and return True; with no match return False. The result pairs
the call outcome (returned value or raised exception) with the final list;
`list.remove` raises before mutating, so on `ValueError` the list is
unchanged. -/
def removeSubreddit (subs : List SubEntry) (arg : String) :
    Except String Bool × List SubEntry :=
  match subs.find? (fun e => normalizeSubName e.pyStr == normalizeSubName arg) with
  | none => (.ok false, subs)
  | some e =>
    match pyListRemove subs (.strObj (normalizeSubName e.pyStr)) with
    | .error err => (.error err, subs)
    | .ok l => (.ok true, l)

theorem pyListRemove_strObj_of_all_sub (l : List SubEntry) (t : String)
    (h : ∀ e ∈ l, e.isSub = true) :
    pyListRemove l (.strObj t) = .error "ValueError" := by
  induction l with
  | nil => rfl
  | cons y ys ih =>
    have hy : y.isSub = true := h y (List.mem_cons_self y ys)
    have hpe : y.pyEq (.strObj t) = false := by
      cases y with
      | subObj i n => rfl
      | strObj s => cases hy
    unfold pyListRemove
    rw [hpe]
    simp only [Bool.false_eq_true, if_false]
    rw [ih (fun e he => h e (List.mem_cons_of_mem y he))]
    rfl

/-- Claim C10 (confirmed): on a `subreddits` list holding `Subreddit`
instances, `remove_subreddit` returns False and leaves the list unchanged
when no stored subreddit's normalized name equals the normalized argument;
when a match exists it raises `ValueError` — `list.remove` is handed the
normalized name STRING, which never compares equal to a stored `Subreddit`
instance — and the list is again unchanged, so no subreddit is ever removed. -/
theorem claim_C10_remove_subreddit (subs : List SubEntry) (arg : String)
    (hsub : ∀ e ∈ subs, e.isSub = true) :
    ((∀ e ∈ subs, normalizeSubName e.pyStr ≠ normalizeSubName arg) →
        removeSubreddit subs arg = (.ok false, subs)) ∧
    ((∃ e ∈ subs, normalizeSubName e.pyStr = normalizeSubName arg) →
        removeSubreddit subs arg = (.error "ValueError", subs)) := by
  constructor
  · intro hno
    have hfind : subs.find?
        (fun e => normalizeSubName e.pyStr == normalizeSubName arg) = none := by
      rw [List.find?_eq_none]
      intro x hx
      simpa using hno x hx
    unfold removeSubreddit
    rw [hfind]
  · rintro ⟨e, he, heq⟩
    have hsome : (subs.find?
        (fun x => normalizeSubName x.pyStr == normalizeSubName arg)).isSome := by
      rw [List.find?_isSome]
      exact ⟨e, he, by simpa using heq⟩
    unfold removeSubreddit
    cases hfind : subs.find?
        (fun x => normalizeSubName x.pyStr == normalizeSubName arg) with
    | none =>
      rw [hfind] at hsome
      cases hsome
    | some e' =>
      dsimp only
      rw [pyListRemove_strObj_of_all_sub subs _ hsub]

/-- Witness for C10 at concrete inputs: a list holding the single `Subreddit`
instance named "Test"; removing "other" returns False unchanged, removing
"r/test" (which normalizes to the stored name) raises `ValueError` with the
list unchanged. -/
theorem claim_C10_witness :
    (removeSubreddit [SubEntry.subObj 0 "Test"] "other"
      = (.ok false, [SubEntry.subObj 0 "Test"])) ∧
    (removeSubreddit [SubEntry.subObj 0 "Test"] "r/test"
      = (.error "ValueError", [SubEntry.subObj 0 "Test"])) :=
  ⟨(claim_C10_remove_subreddit [SubEntry.subObj 0 "Test"] "other"
      (by decide)).1 (by decide),
   (claim_C10_remove_subreddit [SubEntry.subObj 0 "Test"] "r/test"
      (by decide)).2 (by decide)⟩

/-! ### Dispatcher backoff (src/banhammer/banhammer.py send_items) -/

/-- Modelled from the spec: `apraw.utils.ExponentialCounter` is a dependency
not under `src/`. Per spec §4.4 step 5 and §8 it is a counter with floor 1
and a configured ceiling (reference value 16): `count()` advances
multiplicatively (capped at the ceiling) and hands out the new value,
`reset()` returns it to the floor. `value` is the wait most recently handed
out. -/
structure ExponentialCounter where
  maxCount : Nat
  value : Nat
deriving DecidableEq, Repr

/-- `counter.count()`: multiplicative increase up to the ceiling. -/
def ExponentialCounter.count (c : ExponentialCounter) : Nat × ExponentialCounter :=
  (min (c.value * 2) c.maxCount, { c with value := min (c.value * 2) c.maxCount })

/-- `counter.reset()`: back to the floor. -/
def ExponentialCounter.reset (c : ExponentialCounter) : Nat × ExponentialCounter :=
  (1, { c with value := 1 })

/-- The end-of-tick wait computation of `Banhammer.send_items`
(src/banhammer/banhammer.py line 444):
`wait_time = (found and self._counter.reset()) or self._counter.count()`
under Python truthiness — `and`/`or` return an operand, and a number is falsy
exactly when it is zero, so `count()` would only run after a reset handing
out a zero wait. -/
def sendItemsWait (found : Bool) (c : ExponentialCounter) : Nat × ExponentialCounter :=
  if found then
    if (c.reset).1 ≠ 0 then c.reset
    else (c.reset).2.count
  else c.count

/-- Claim C7 (confirmed): after a tick that produced at least one item the
wait is the counter's floor 1; after a tick with zero items the wait never
exceeds the ceiling 16 and strictly exceeds the previous wait while that was
below the ceiling. `c.value` is the previous tick's wait (both operations
store the value they hand out, as the final conjunct shows), and every
handed-out wait is ≥ the floor 1. -/
theorem claim_C7_backoff (c : ExponentialCounter)
    (hmax : c.maxCount = 16) (hpos : 1 ≤ c.value) :
    ((sendItemsWait true c).1 = 1 ∧ (sendItemsWait true c).2.value = 1) ∧
    ((sendItemsWait false c).1 ≤ 16 ∧
      (c.value < 16 → c.value < (sendItemsWait false c).1) ∧
      (sendItemsWait false c).2.value = (sendItemsWait false c).1) := by
  unfold sendItemsWait ExponentialCounter.count ExponentialCounter.reset
  refine ⟨⟨by simp, by simp⟩, ?_, ?_, by simp⟩
  · simp only [Bool.false_eq_true, if_false]
    rw [hmax]
    exact min_le_right _ _
  · intro hlt
    simp only [Bool.false_eq_true, if_false]
    rw [hmax]
    exact Nat.lt_min.mpr ⟨by omega, hlt⟩

/-- Witness for C7 at a concrete counter (ceiling 16, previous wait 4): a
productive tick hands out the floor 1; a quiet tick hands out 8. -/
theorem claim_C7_witness :
    (ExponentialCounter.mk 16 4).maxCount = 16 ∧
    1 ≤ (ExponentialCounter.mk 16 4).value ∧
    (((sendItemsWait true ⟨16, 4⟩).1 = 1 ∧ (sendItemsWait true ⟨16, 4⟩).2.value = 1) ∧
      ((sendItemsWait false ⟨16, 4⟩).1 ≤ 16 ∧
        ((ExponentialCounter.mk 16 4).value < 16 →
          (ExponentialCounter.mk 16 4).value < (sendItemsWait false ⟨16, 4⟩).1) ∧
        (sendItemsWait false ⟨16, 4⟩).2.value = (sendItemsWait false ⟨16, 4⟩).1)) :=
  ⟨rfl, by decide, claim_C7_backoff ⟨16, 4⟩ rfl (by decide)⟩

end Banhammer
